import Mathlib

/-!
Verification development for the stock-market valuation engine
(`src/utils.py`): a shallow embedding of `get_pl_bs_cashflow` (paginated,
retrying fetch of PL/BS/CF statement records with numeric coercion and
derived-field augmentation) and `calculate_valuation_metrics` (record
selection, price fetch, guarded ratio computation), together with theorems
settling the specification claims about them.

Modelling conventions:
- Python floats are modelled by `F`: either NaN or an exact rational.
  Binary rounding error is not modelled; the claims under study are about
  NaN/null structure and exact formulas, not about ulp-level accuracy.
  IEEE infinities are outside the model (see `pyFloatOfString`).
- Provider values (JSON fields / DataFrame cells) are modelled by `PyVal`:
  absent (`pnone`, i.e. Python `None` / missing key), a string, or a float.
- Network traffic is modelled by scripts: a list of scripted outcomes that
  the fetch loops consume in order, one outcome per HTTP request made.
-/

namespace StockMarket

/-- Model of a Python float: NaN or an exact rational value. -/
inductive F
  | nan
  | num (q : ℚ)
deriving DecidableEq, Repr

/-- Model of a value held in a provider record / DataFrame cell:
absent (Python `None` or missing key), a string, or a float. -/
inductive PyVal
  | pnone
  | pstr (s : String)
  | pnum (f : F)
deriving DecidableEq, Repr

/-- Floor of a rational, computed as floor division of numerator by
denominator (the denominator of `ℚ` is positive). -/
def qfloor (q : ℚ) : ℤ := Int.fdiv q.num (q.den : ℤ)

/-- Round a rational to the nearest integer, ties to even: the rounding mode
of Python's built-in `round`. -/
def rhe (q : ℚ) : ℤ :=
  let f := qfloor q
  let r := q - (f : ℚ)
  if r < 1/2 then f
  else if (1/2 : ℚ) < r then f + 1
  else if f % 2 = 0 then f else f + 1

/-- Python `round(x, n)` on the float model: NaN rounds to NaN (Python
`round(nan, n)` is nan), a number is rounded half-to-even at `n` decimal
digits. -/
def fround (n : ℕ) : F → F
  | F.nan => F.nan
  | F.num q => F.num ((rhe (q * (10 ^ n : ℚ)) : ℚ) / (10 ^ n : ℚ))

/-- Float multiplication: NaN propagates. -/
def fmul : F → F → F
  | F.num a, F.num b => F.num (a * b)
  | _, _ => F.nan

/-- Float division: NaN propagates. In the source every division of scalars
is guarded by a strict-positivity test on the denominator, so the
denominator-zero branch (which would raise `ZeroDivisionError` in Python)
is never reached by the functions below; it is mapped to NaN here. -/
def fdiv : F → F → F
  | F.num a, F.num b => if b = 0 then F.nan else F.num (a / b)
  | _, _ => F.nan

/-- Float strict comparison `a > b`: any comparison involving NaN is false,
as in IEEE / Python. -/
def fgt : F → F → Bool
  | F.num a, F.num b => decide (b < a)
  | _, _ => false

/-- Digit list to natural number (most significant first); callers ensure
all characters are digits. -/
def digitsToNat (cs : List Char) : ℕ :=
  cs.foldl (fun acc c => 10 * acc + (c.toNat - 48)) 0

/-- Parse a plain decimal literal: optional sign, digits, optional decimal
point and fraction digits. This models the numeric-string grammar shared by
`pandas.to_numeric` and Python `float()` for the ordinary finite literals
the provider emits; exponent notation, embedded underscores and whitespace
trimming are outside the model and map to a parse failure. -/
def parseDecimal (s : String) : Option ℚ :=
  let cs := s.data
  let signed : Bool × List Char :=
    match cs with
    | '-' :: rest => (true, rest)
    | '+' :: rest => (false, rest)
    | _ => (false, cs)
  let neg := signed.1
  let body := signed.2
  let intPart := body.takeWhile Char.isDigit
  let rest := body.dropWhile Char.isDigit
  let core : Option ℚ :=
    match rest with
    | [] => if intPart.isEmpty then none else some (digitsToNat intPart : ℚ)
    | '.' :: frac =>
      if frac.all Char.isDigit && !(intPart.isEmpty && frac.isEmpty) then
        some ((digitsToNat intPart : ℚ) + (digitsToNat frac : ℚ) / (10 ^ frac.length : ℚ))
      else none
    | _ => none
  core.map (fun q => if neg then -q else q)

/-- Python `float(s)` on a string: accepts the decimal grammar of
`parseDecimal` and also the spelling "nan" (any case, optionally signed),
which yields a float NaN. Python additionally accepts infinity spellings;
infinite values are outside the model (`F` has no infinity) and those
spellings are treated as parse failures here. -/
def pyFloatOfString (s : String) : Option F :=
  let t := s.data.map Char.toLower
  if t = "nan".data || t = "+nan".data || t = "-nan".data then some F.nan
  else (parseDecimal s).map F.num

/-- Embedding of the inner helper `safe_float` of
`calculate_valuation_metrics`: `None`, `""` and the exact string `"NaN"`
map to `0.0`; any other string goes through `float()`, with a raised
conversion error caught and mapped to `0.0`; a float passes through
unchanged — in particular a float NaN stays NaN, since `nan` compares
unequal to every element of `[None, "", "NaN"]`. -/
def safe_float (v : PyVal) : F :=
  match v with
  | PyVal.pnone => F.num 0
  | PyVal.pstr s =>
    if s = "" || s = "NaN" then F.num 0
    else (pyFloatOfString s).getD (F.num 0)
  | PyVal.pnum f => f

/-- Decide whether `pat` occurs as a contiguous sublist of the second
argument. -/
def subListCheck (pat : List Char) : List Char → Bool
  | [] => pat.isEmpty
  | a :: as => pat.isPrefixOf (a :: as) || subListCheck pat as

/-- Embedding of
`.str.contains("FY|Annual", case=False, regex=True)`: the regex is an
alternation of two literals, so case-insensitive matching is substring
containment of "fy" or "annual" in the lowercased character sequence (the
pattern letters are ASCII, so ASCII lowercasing suffices). -/
def containsAnnual (s : String) : Bool :=
  subListCheck "fy".data (s.data.map Char.toLower) ||
    subListCheck "annual".data (s.data.map Char.toLower)

/-- Embedding of pandas `astype(str)` on a cell: `None` prints as "None",
a float NaN as "nan", a string as itself; a numeric cell prints as its
numeral (its exact text is irrelevant to the annual-pattern test, which
only looks for alphabetic substrings). -/
def pyToStr (v : PyVal) : String :=
  match v with
  | PyVal.pnone => "None"
  | PyVal.pstr s => s
  | PyVal.pnum F.nan => "nan"
  | PyVal.pnum (F.num q) => toString q

/-- Embedding of pandas NA-ness of a cell, as used by
`dropna(subset=[...])`: `None` and float NaN are NA. -/
def isNA (v : PyVal) : Bool :=
  match v with
  | PyVal.pnone => true
  | PyVal.pnum F.nan => true
  | _ => false

/-- Insert an element into a list sorted ascending by `key`, keeping it
sorted. Building block of the embedding of `sort_values` (ascending sort by
a column; the order among equal keys is unspecified by pandas' default
quicksort and is fixed here by insertion order). -/
def insertByKey {α : Type} (key : α → ℤ) (x : α) : List α → List α
  | [] => [x]
  | y :: ys => if key x ≤ key y then x :: y :: ys else y :: insertByKey key x ys

/-- Insertion sort ascending by `key`: the embedding of
`DataFrame.sort_values(column)`. -/
def sortByKey {α : Type} (key : α → ℤ) : List α → List α
  | [] => []
  | x :: xs => insertByKey key x (sortByKey key xs)

theorem mem_insertByKey {α : Type} (key : α → ℤ) (x : α) (l : List α) (a : α) :
    a ∈ insertByKey key x l ↔ a = x ∨ a ∈ l := by
  induction l with
  | nil => simp [insertByKey]
  | cons y ys ih =>
    simp only [insertByKey]
    split
    · simp
    · simp only [List.mem_cons, ih]
      tauto

theorem mem_sortByKey {α : Type} (key : α → ℤ) (l : List α) (a : α) :
    a ∈ sortByKey key l ↔ a ∈ l := by
  induction l with
  | nil => simp [sortByKey]
  | cons x xs ih =>
    simp only [sortByKey, mem_insertByKey, ih, List.mem_cons]

theorem pairwise_insertByKey {α : Type} (key : α → ℤ) (x : α) (l : List α)
    (h : l.Pairwise (fun a b => key a ≤ key b)) :
    (insertByKey key x l).Pairwise (fun a b => key a ≤ key b) := by
  induction l with
  | nil => simp [insertByKey]
  | cons y ys ih =>
    rw [List.pairwise_cons] at h
    simp only [insertByKey]
    split
    · rename_i hle
      rw [List.pairwise_cons]
      refine ⟨?_, List.pairwise_cons.mpr h⟩
      intro b hb
      rcases List.mem_cons.mp hb with rfl | hb
      · exact hle
      · exact le_trans hle (h.1 b hb)
    · rename_i hgt
      rw [List.pairwise_cons]
      refine ⟨?_, ih h.2⟩
      intro b hb
      rcases (mem_insertByKey key x ys b).mp hb with rfl | hb
      · exact le_of_not_le hgt
      · exact h.1 b hb

theorem pairwise_sortByKey {α : Type} (key : α → ℤ) (l : List α) :
    (sortByKey key l).Pairwise (fun a b => key a ≤ key b) := by
  induction l with
  | nil => simp [sortByKey]
  | cons x xs ih => exact pairwise_insertByKey key x _ ih

theorem pairwise_filter_of_pairwise {α : Type} (key : α → ℤ) (p : α → Bool) (l : List α)
    (h : l.Pairwise (fun a b => key a ≤ key b)) :
    (l.filter p).Pairwise (fun a b => key a ≤ key b) := by
  induction l with
  | nil => simp
  | cons x xs ih =>
    rw [List.pairwise_cons] at h
    by_cases hp : p x
    · rw [List.filter_cons_of_pos hp, List.pairwise_cons]
      exact ⟨fun b hb => h.1 b (List.mem_of_mem_filter hb), ih h.2⟩
    · rw [List.filter_cons_of_neg hp]
      exact ih h.2

/-- An element returned by `getLast?` is a member of the list. -/
theorem mem_of_getLast?' {α : Type} {l : List α} {x : α} (hx : l.getLast? = some x) :
    x ∈ l := by
  have hmem : x ∈ l.getLast? := Option.mem_def.mpr hx
  rcases List.mem_getLast?_eq_getLast hmem with ⟨h, rfl⟩
  exact List.getLast_mem h

/-- In a list that is pairwise ascending by `key`, the element returned by
`getLast?` has maximal key: the embedding-level content of "most recent
record" selection via `iloc[-1]` on a date-sorted frame. -/
theorem getLast?_key_max {α : Type} (key : α → ℤ) (l : List α) (x : α)
    (h : l.Pairwise (fun a b => key a ≤ key b))
    (hx : l.getLast? = some x) :
    ∀ a ∈ l, key a ≤ key x := by
  induction l with
  | nil => simp at hx
  | cons y ys ih =>
    rw [List.pairwise_cons] at h
    cases ys with
    | nil =>
      simp only [List.getLast?_singleton, Option.some.injEq] at hx
      subst hx
      intro a ha
      rcases List.mem_singleton.mp ha with rfl
      exact le_refl _
    | cons z zs =>
      rw [List.getLast?_cons_cons] at hx
      intro a ha
      rcases List.mem_cons.mp ha with rfl | ha
      · exact h.1 x (mem_of_getLast?' hx)
      · exact ih h.2 hx a ha

/-! ### Embedding of `get_pl_bs_cashflow` -/

/-- A raw provider record (one JSON object of the `data` list): a total map
from field name to cell value, with `pnone` for keys absent from the
object. -/
def RawRecord : Type := String → PyVal

/-- Decoded body of one HTTP 200 response of the fundamentals endpoint:
the `data` list and the optional `pagination_key`. -/
structure Body where
  data : List RawRecord
  paginationKey : Option String

/-- Scripted outcome of one fundamentals HTTP request, consumed in order by
the fetch loop: a 200 response with a decoded body, a non-200 status, or a
raised exception (network error, JSON decode error, ...). An exhausted
script behaves as a raised exception. -/
inductive NetEvent
  | ok (b : Body)
  | err
  | exc

/-- Embedding of the inner pagination loop (`while "pagination_key" in d`).
Arguments: remaining script, pagination key of the response just decoded,
records accumulated so far. Returns the accumulated records, the remaining
script, whether an exception aborted the attempt (it propagates to the
outer `except`, which sleeps and retries the whole fetch), and the number
of page requests performed. A non-200 page response breaks the loop keeping
the accumulator. -/
def paginate : List NetEvent → Option String → List RawRecord →
    List RawRecord × List NetEvent × Bool × ℕ
  | s, none, acc => (acc, s, false, 0)
  | [], some _, acc => (acc, [], true, 1)
  | NetEvent.ok b :: rest, some _, acc =>
    let r := paginate rest b.paginationKey (acc ++ b.data)
    (r.1, r.2.1, r.2.2.1, r.2.2.2 + 1)
  | NetEvent.err :: rest, some _, acc => (acc, rest, false, 1)
  | NetEvent.exc :: rest, some _, acc => (acc, rest, true, 1)

/-- Embedding of the retry loop `for attempt in range(max_retries)`.
Arguments: remaining attempts, remaining script. Returns the raw records of
the first successful attempt (`none` after exhausting attempts), the total
number of HTTP requests performed, and the number of backoff sleeps
performed. A non-200 initial response or an exception (anywhere inside the
`try`, including during pagination or post-processing) causes a sleep and a
fresh attempt. Post-processing of an empty accumulated `data` raises
(`df[col]` is a `KeyError` on a DataFrame with no columns), so an attempt
that accumulates no records is also retried. -/
def fetchLoop : ℕ → List NetEvent → Option (List RawRecord) × ℕ × ℕ
  | 0, _ => (none, 0, 0)
  | n + 1, [] =>
    let r := fetchLoop n []
    (r.1, r.2.1 + 1, r.2.2 + 1)
  | n + 1, NetEvent.err :: rest =>
    let r := fetchLoop n rest
    (r.1, r.2.1 + 1, r.2.2 + 1)
  | n + 1, NetEvent.exc :: rest =>
    let r := fetchLoop n rest
    (r.1, r.2.1 + 1, r.2.2 + 1)
  | n + 1, NetEvent.ok b :: rest =>
    let p := paginate rest b.paginationKey b.data
    if p.2.2.1 then
      let r := fetchLoop n p.2.1
      (r.1, r.2.1 + 1 + p.2.2.2, r.2.2 + 1)
    else if p.1.isEmpty then
      let r := fetchLoop n p.2.1
      (r.1, r.2.1 + 1 + p.2.2.2, r.2.2 + 1)
    else (some p.1, 1 + p.2.2.2, 0)

/-- Embedding of `pd.to_numeric(col, errors="coerce").fillna(0)` on one
cell: an absent cell and a float NaN coerce through NaN to `0`; a numeric
cell keeps its value; a string cell parses as a decimal literal, with parse
failure coerced through NaN to `0`. -/
def coerceNum (v : PyVal) : ℚ :=
  match v with
  | PyVal.pnone => 0
  | PyVal.pnum F.nan => 0
  | PyVal.pnum (F.num q) => q
  | PyVal.pstr s => (parseDecimal s).getD 0

/-- Pandas column-wise float division on already-coerced cells: division by
zero yields a non-finite value (`inf` or NaN) rather than raising; all
non-finite results are modelled as `F.nan`. -/
def pdDivQ (a b : ℚ) : F :=
  if b = 0 then F.nan else F.num (a / b)

/-- One record of the returned PL sequence: the projected columns
`pl_cols`, with the declared numeric columns coerced, plus the derived
`Operating_Margin = OP / Sales`. -/
structure PLRec where
  Code : PyVal
  DocType : PyVal
  CurPerEn : PyVal
  CurFYEn : PyVal
  Sales : ℚ
  OP : ℚ
  OdP : ℚ
  NP : ℚ
  EPS : ℚ
  DEPS : ℚ
  Operating_Margin : F

/-- One record of the returned BS sequence: the projected columns
`bl_cols`, numeric columns coerced, plus the derived
`Liabilities = TA - Eq` and `Equity_Ratio = Eq / TA`. -/
structure BSRec where
  Code : PyVal
  DocType : PyVal
  CurPerEn : PyVal
  CurFYEn : PyVal
  TA : ℚ
  CashEq : ℚ
  Eq : ℚ
  EqAR : ℚ
  BPS : ℚ
  Liabilities : ℚ
  Equity_Ratio : F

/-- One record of the returned CF sequence: the projected columns
`cf_cols`, numeric columns coerced, plus the derived
`Free_Cash_Flow = CFO + CFI`. -/
structure CFRec where
  Code : PyVal
  DocType : PyVal
  CurPerEn : PyVal
  CurFYEn : PyVal
  CFO : ℚ
  CFI : ℚ
  CFF : ℚ
  CashEq : ℚ
  Free_Cash_Flow : ℚ

/-- Build one PL output record from a raw record. -/
def mkPLRec (r : RawRecord) : PLRec :=
  { Code := r "Code"
    DocType := r "DocType"
    CurPerEn := r "CurPerEn"
    CurFYEn := r "CurFYEn"
    Sales := coerceNum (r "Sales")
    OP := coerceNum (r "OP")
    OdP := coerceNum (r "OdP")
    NP := coerceNum (r "NP")
    EPS := coerceNum (r "EPS")
    DEPS := coerceNum (r "DEPS")
    Operating_Margin := pdDivQ (coerceNum (r "OP")) (coerceNum (r "Sales")) }

/-- Build one BS output record from a raw record. -/
def mkBSRec (r : RawRecord) : BSRec :=
  { Code := r "Code"
    DocType := r "DocType"
    CurPerEn := r "CurPerEn"
    CurFYEn := r "CurFYEn"
    TA := coerceNum (r "TA")
    CashEq := coerceNum (r "CashEq")
    Eq := coerceNum (r "Eq")
    EqAR := coerceNum (r "EqAR")
    BPS := coerceNum (r "BPS")
    Liabilities := coerceNum (r "TA") - coerceNum (r "Eq")
    Equity_Ratio := pdDivQ (coerceNum (r "Eq")) (coerceNum (r "TA")) }

/-- Build one CF output record from a raw record. -/
def mkCFRec (r : RawRecord) : CFRec :=
  { Code := r "Code"
    DocType := r "DocType"
    CurPerEn := r "CurPerEn"
    CurFYEn := r "CurFYEn"
    CFO := coerceNum (r "CFO")
    CFI := coerceNum (r "CFI")
    CFF := coerceNum (r "CFF")
    CashEq := coerceNum (r "CashEq")
    Free_Cash_Flow := coerceNum (r "CFO") + coerceNum (r "CFI") }

/-- Result of the fetch: the three statement sequences plus the
observable network behaviour (number of HTTP requests made and number of
backoff sleeps). -/
structure FetchOut where
  pl : List PLRec
  bs : List BSRec
  cf : List CFRec
  requests : ℕ
  sleeps : ℕ

/-- Embedding of `get_pl_bs_cashflow`: an empty code short-circuits to
three empty sequences with no request; otherwise up to 3 attempts of the
paginated fetch run against the scripted provider, and the accumulated raw
records are coerced, projected, and augmented into the three sequences.
Failure of all attempts degrades to three empty sequences, never an
exception. -/
def get_pl_bs_cashflow (code : String) (script : List NetEvent) : FetchOut :=
  if code = "" then ⟨[], [], [], 0, 0⟩
  else
    let r := fetchLoop 3 script
    match r.1 with
    | some data => ⟨data.map mkPLRec, data.map mkBSRec, data.map mkCFRec, r.2.1, r.2.2⟩
    | none => ⟨[], [], [], r.2.1, r.2.2⟩

/-! ### Embedding of `calculate_valuation_metrics` -/

/-- One input PL record of the calculator (one dict of `pl_data`), with the
fields the calculator reads. `CurPerEn` is the period-end date already
parsed by `pd.to_datetime` into a comparable timestamp; inputs containing a
date that fails to parse make the source return the empty dict via the
caught `ValueError` and lie outside this input type. Fields absent from a
dict are `pnone`. -/
structure PLIn where
  DocType : PyVal
  CurPerEn : ℤ
  Sales : PyVal
  EPS : PyVal
  NP : PyVal
deriving DecidableEq, Repr

/-- One input BS record of the calculator (one dict of `bs_data`). -/
structure BSIn where
  CurPerEn : ℤ
  TA : PyVal
  Eq : PyVal
  BPS : PyVal
deriving DecidableEq, Repr

/-- Date key of a PL input record. -/
def dateKeyPL (r : PLIn) : ℤ := r.CurPerEn

/-- Date key of a BS input record. -/
def dateKeyBS (r : BSIn) : ℤ := r.CurPerEn

/-- PL records eligible for selection: the frame sorted ascending by
period end (`sort_values("CurPerEn")`) with rows whose `Sales` cell is NA
dropped (`dropna(subset=["Sales"])`, removing forecast-revision noise). -/
def plCandidates (pl : List PLIn) : List PLIn :=
  (sortByKey dateKeyPL pl).filter (fun r => !(isNA r.Sales))

/-- Eligible PL records whose `DocType` matches the annual pattern
(`str.contains("FY|Annual", case=False)`). -/
def plAnnuals (pl : List PLIn) : List PLIn :=
  (plCandidates pl).filter (fun r => containsAnnual (pyToStr r.DocType))

/-- Embedding of the PL selection: the last (most recent) annual record
when one exists, marked annual; otherwise the last eligible record
overall, marked non-annual; `none` when `iloc[-1]` would raise on an empty
frame (which the source catches, returning the empty dict). -/
def selPL (pl : List PLIn) : Option (PLIn × Bool) :=
  match (plAnnuals pl).getLast? with
  | some x => some (x, true)
  | none => (plCandidates pl).getLast?.map (fun y => (y, false))

/-- BS records eligible for selection: sorted ascending by period end with
rows whose `TA` cell is NA dropped. -/
def bsCandidates (bs : List BSIn) : List BSIn :=
  (sortByKey dateKeyBS bs).filter (fun r => !(isNA r.TA))

/-- Embedding of the BS selection: always the most recent eligible record,
with no annual/interim distinction. -/
def selBS (bs : List BSIn) : Option BSIn :=
  (bsCandidates bs).getLast?

/-- Scripted outcome of one yfinance `Ticker.history(period="1d")` call:
a raised exception, or a returned history whose `Close` column is the
given list of floats (the empty list models an empty frame). -/
inductive PriceEvent
  | perr
  | phist (closes : List F)

/-- Embedding of the price retry loop: up to 3 attempts; an attempt fails
when `history` raises or returns an empty frame; the loop breaks on the
first non-empty history and the price is its last close. Returns the price
(`none` when all attempts fail, making the whole calculation yield the
empty dict) and the number of `history` calls made. An exhausted script
behaves as a raised exception. -/
def fetchPrice : ℕ → List PriceEvent → Option F × ℕ
  | 0, _ => (none, 0)
  | n + 1, [] =>
    let r := fetchPrice n []
    (r.1, r.2 + 1)
  | n + 1, PriceEvent.perr :: rest =>
    let r := fetchPrice n rest
    (r.1, r.2 + 1)
  | n + 1, PriceEvent.phist closes :: rest =>
    match closes.getLast? with
    | some p => (some p, 1)
    | none =>
      let r := fetchPrice n rest
      (r.1, r.2 + 1)

/-- Python `yf_code.split(".")[0]`: the substring before the first dot. -/
def codePrefix (s : String) : String :=
  String.mk (s.data.takeWhile (fun c => c ≠ '.'))

/-- Value stored under a key of the returned metrics dict: a string (the
code), a float (price or a computed ratio), or Python `None`. -/
inductive MVal
  | mStr (s : String)
  | mNum (f : F)
  | mNull
deriving DecidableEq, Repr

/-- Construction of the metrics dict (step 4 of the source), given the
selected PL record (with its annual mark), the selected BS record, and the
fetched price. Insertion order of the keys follows the source. Every ratio
is guarded by a strict-positivity test on its denominator; when the
selection is not annual, `PER`, `ROE`, `ROA` are set to `None`
unconditionally. -/
def mkMetrics (yf_code : String) (lpl : PLIn) (isAnn : Bool) (lbs : BSIn) (price : F) :
    List (String × MVal) :=
  let eps := safe_float lpl.EPS
  let npv := safe_float lpl.NP
  let bps := safe_float lbs.BPS
  let eq := safe_float lbs.Eq
  let ta := safe_float lbs.TA
  [("Code", MVal.mStr (codePrefix yf_code)),
   ("Price", MVal.mNum price),
   ("EquityRatio",
     if fgt ta (F.num 0) then MVal.mNum (fround 1 (fmul (fdiv eq ta) (F.num 100)))
     else MVal.mNull),
   ("PBR",
     if fgt bps (F.num 0) then MVal.mNum (fround 2 (fdiv price bps))
     else MVal.mNull)]
  ++ (if isAnn then
        [("PER",
           if fgt eps (F.num 0) then MVal.mNum (fround 2 (fdiv price eps))
           else MVal.mNull),
         ("ROE",
           if fgt eq (F.num 0) then MVal.mNum (fround 2 (fmul (fdiv npv eq) (F.num 100)))
           else MVal.mNull),
         ("ROA",
           if fgt ta (F.num 0) then MVal.mNum (fround 2 (fmul (fdiv npv ta) (F.num 100)))
           else MVal.mNull)]
      else
        [("PER", MVal.mNull), ("ROE", MVal.mNull), ("ROA", MVal.mNull)])

/-- Result of the calculator: the metrics dict as an ordered key/value list
(the empty list embeds the empty dict `{}`), plus the number of price
requests made (observable network behaviour). -/
structure CalcOut where
  metrics : List (String × MVal)
  priceRequests : ℕ

/-- Embedding of `calculate_valuation_metrics`: validation short-circuits
on an empty ticker or empty input sets before any work; record selection
failure (empty frame after filtering, `IndexError`) yields the empty dict
before any price request; a failed price fetch yields the empty dict; and
otherwise the metrics dict is assembled by `mkMetrics`. -/
def calculate_valuation_metrics (yf_code : String) (pl : List PLIn) (bs : List BSIn)
    (ps : List PriceEvent) : CalcOut :=
  if yf_code = "" ∨ pl = [] ∨ bs = [] then ⟨[], 0⟩
  else
    match selPL pl, selBS bs with
    | some (lpl, isAnn), some lbs =>
      let pr := fetchPrice 3 ps
      match pr.1 with
      | some price => ⟨mkMetrics yf_code lpl isAnn lbs price, pr.2⟩
      | none => ⟨[], pr.2⟩
    | _, _ => ⟨[], 0⟩

/-! ### Helper lemmas -/

/-- When validation passes, both selections succeed and the price fetch
succeeds, the calculator returns exactly the dict built by `mkMetrics`. -/
theorem calc_metrics_eq (yf : String) (pl : List PLIn) (bs : List BSIn) (ps : List PriceEvent)
    (lpl : PLIn) (ann : Bool) (lbs : BSIn) (price : F) (c : ℕ)
    (hv : ¬(yf = "" ∨ pl = [] ∨ bs = []))
    (hsel : selPL pl = some (lpl, ann)) (hselb : selBS bs = some lbs)
    (hp : fetchPrice 3 ps = (some price, c)) :
    calculate_valuation_metrics yf pl bs ps = ⟨mkMetrics yf lpl ann lbs price, c⟩ := by
  unfold calculate_valuation_metrics
  rw [if_neg hv, hsel, hselb, hp]

theorem mem_plCandidates (pl : List PLIn) (r : PLIn) :
    r ∈ plCandidates pl ↔ r ∈ pl ∧ isNA r.Sales = false := by
  unfold plCandidates
  rw [List.mem_filter, mem_sortByKey, Bool.not_eq_true']

theorem mem_plAnnuals (pl : List PLIn) (r : PLIn) :
    r ∈ plAnnuals pl ↔
      r ∈ pl ∧ isNA r.Sales = false ∧ containsAnnual (pyToStr r.DocType) = true := by
  unfold plAnnuals
  rw [List.mem_filter, mem_plCandidates, and_assoc]

theorem mem_bsCandidates (bs : List BSIn) (r : BSIn) :
    r ∈ bsCandidates bs ↔ r ∈ bs ∧ isNA r.TA = false := by
  unfold bsCandidates
  rw [List.mem_filter, mem_sortByKey, Bool.not_eq_true']

theorem pairwise_plCandidates (pl : List PLIn) :
    (plCandidates pl).Pairwise (fun a b => dateKeyPL a ≤ dateKeyPL b) :=
  pairwise_filter_of_pairwise _ _ _ (pairwise_sortByKey dateKeyPL pl)

theorem pairwise_plAnnuals (pl : List PLIn) :
    (plAnnuals pl).Pairwise (fun a b => dateKeyPL a ≤ dateKeyPL b) :=
  pairwise_filter_of_pairwise _ _ _ (pairwise_plCandidates pl)

theorem pairwise_bsCandidates (bs : List BSIn) :
    (bsCandidates bs).Pairwise (fun a b => dateKeyBS a ≤ dateKeyBS b) :=
  pairwise_filter_of_pairwise _ _ _ (pairwise_sortByKey dateKeyBS bs)

theorem fmul_not_nan (a b : F) (ha : a ≠ F.nan) (hb : b ≠ F.nan) : fmul a b ≠ F.nan := by
  cases a with
  | nan => exact absurd rfl ha
  | num p =>
    cases b with
    | nan => exact absurd rfl hb
    | num q => simp [fmul]

theorem fgt_zero_num (b : F) (hb : fgt b (F.num 0) = true) : ∃ q : ℚ, b = F.num q ∧ 0 < q := by
  cases b with
  | nan => simp [fgt] at hb
  | num q =>
    refine ⟨q, rfl, ?_⟩
    simpa [fgt] using hb

theorem fdiv_not_nan (a b : F) (ha : a ≠ F.nan) (hb : fgt b (F.num 0) = true) :
    fdiv a b ≠ F.nan := by
  obtain ⟨q, rfl, hq⟩ := fgt_zero_num b hb
  cases a with
  | nan => exact absurd rfl ha
  | num p => simp [fdiv, ne_of_gt hq]

theorem fround_not_nan (n : ℕ) (a : F) (ha : a ≠ F.nan) : fround n a ≠ F.nan := by
  cases a with
  | nan => exact absurd rfl ha
  | num q => simp [fround]

/-! ### Claim theorems -/

/-- C10: every call to `calculate_valuation_metrics` returns either the
empty dict or a dict whose keys are exactly `Code`, `Price`, `EquityRatio`,
`PBR`, `PER`, `ROE`, `ROA` in this order — `PER`, `ROE`, `ROA` are present
as keys (possibly with `None` values) in every non-empty result, and no
partially populated dict is ever returned. -/
theorem c10_metrics_all_or_nothing (yf : String) (pl : List PLIn) (bs : List BSIn)
    (ps : List PriceEvent) :
    (calculate_valuation_metrics yf pl bs ps).metrics = [] ∨
    (calculate_valuation_metrics yf pl bs ps).metrics.map Prod.fst =
      ["Code", "Price", "EquityRatio", "PBR", "PER", "ROE", "ROA"] := by
  unfold calculate_valuation_metrics
  split
  · exact Or.inl rfl
  · split
    · rename_i lpl ann lbs _ _
      rcases hpr : (fetchPrice 3 ps).1 with _ | price
      · left
        simp only [hpr]
      · right
        cases ann <;> simp [hpr, mkMetrics]
    · exact Or.inl rfl

/-- C9: validation short-circuits with no external call. The empty code
makes `get_pl_bs_cashflow` return three empty sequences with zero HTTP
requests, and an empty ticker or an empty PL or BS input set makes
`calculate_valuation_metrics` return the empty dict with zero price
requests. -/
theorem c9_validation_short_circuit (script : List NetEvent) (yf : String)
    (pl : List PLIn) (bs : List BSIn) (ps : List PriceEvent)
    (h : yf = "" ∨ pl = [] ∨ bs = []) :
    get_pl_bs_cashflow "" script = ⟨[], [], [], 0, 0⟩ ∧
    calculate_valuation_metrics yf pl bs ps = ⟨[], 0⟩ := by
  constructor
  · rfl
  · unfold calculate_valuation_metrics
    rw [if_pos h]

/-- Witness for C9 at concrete inputs: an empty PL set short-circuits. -/
theorem c9_validation_short_circuit_witness :
    get_pl_bs_cashflow "" [] = ⟨[], [], [], 0, 0⟩ ∧
    calculate_valuation_metrics "7203.T" [] [] [] = ⟨[], 0⟩ :=
  c9_validation_short_circuit [] "7203.T" [] [] [] (Or.inr (Or.inl rfl))

/-- A scripted fundamentals request outcome that fails: non-200 status or a
raised exception. -/
def isFailEvent (e : NetEvent) : Prop := e = NetEvent.err ∨ e = NetEvent.exc

/-- C7: for a non-empty code, when the first three scripted outcomes (the
three initial-request attempts) all fail — non-200 status or exception —
the fetch makes exactly 3 HTTP requests, sleeps the fixed backoff after
each failure, returns three empty sequences, and never raises (it is a
total function into `FetchOut`). -/
theorem c7_three_attempts_then_empty (code : String) (hc : ¬ code = "")
    (e1 e2 e3 : NetEvent) (rest : List NetEvent)
    (h1 : isFailEvent e1) (h2 : isFailEvent e2) (h3 : isFailEvent e3) :
    get_pl_bs_cashflow code (e1 :: e2 :: e3 :: rest) = ⟨[], [], [], 3, 3⟩ := by
  rcases h1 with rfl | rfl <;> rcases h2 with rfl | rfl <;> rcases h3 with rfl | rfl <;>
    · unfold get_pl_bs_cashflow
      rw [if_neg hc]
      rfl

/-- Witness for C7: three HTTP 500 responses yield `([], [], [])` after
exactly 3 requests. -/
theorem c7_three_attempts_then_empty_witness :
    get_pl_bs_cashflow "7203" [NetEvent.err, NetEvent.err, NetEvent.err] =
      ⟨[], [], [], 3, 3⟩ :=
  c7_three_attempts_then_empty "7203" (by decide) _ _ _ []
    (Or.inl rfl) (Or.inl rfl) (Or.inl rfl)

/-- C8: in every fetch result, every augmented BS record satisfies
`Liabilities = TA - Eq` and `Equity_Ratio = Eq / TA`, and every augmented
CF record satisfies `Free_Cash_Flow = CFO + CFI`, each computed from the
already-coerced numeric fields of that same record. -/
theorem c8_derived_fields (code : String) (script : List NetEvent) :
    (∀ rec ∈ (get_pl_bs_cashflow code script).bs,
        rec.Liabilities = rec.TA - rec.Eq ∧ rec.Equity_Ratio = pdDivQ rec.Eq rec.TA) ∧
    (∀ rec ∈ (get_pl_bs_cashflow code script).cf,
        rec.Free_Cash_Flow = rec.CFO + rec.CFI) := by
  unfold get_pl_bs_cashflow
  split
  · simp
  · rcases hfl : fetchLoop 3 script with ⟨od, cnt⟩
    simp only [hfl]
    cases od with
    | none => simp
    | some data =>
      constructor
      · intro rec hrec
        simp only [List.mem_map] at hrec
        obtain ⟨r, _, rfl⟩ := hrec
        exact ⟨rfl, rfl⟩
      · intro rec hrec
        simp only [List.mem_map] at hrec
        obtain ⟨r, _, rfl⟩ := hrec
        rfl

/-- Concrete raw provider record used by witnesses: carries string-typed
`TA` and `Eq`, numeric `Sales`, `CFO`, `CFI`, and leaves every other field
absent. -/
def rawOne : RawRecord := fun f =>
  if f = "TA" then PyVal.pstr "200"
  else if f = "Eq" then PyVal.pstr "50"
  else if f = "Sales" then PyVal.pnum (F.num 7)
  else if f = "CFO" then PyVal.pnum (F.num 10)
  else if f = "CFI" then PyVal.pnum (F.num (-4))
  else PyVal.pnone

/-- Single-page script delivering `rawOne`. -/
def scriptOne : List NetEvent := [NetEvent.ok ⟨[rawOne], none⟩]

/-- Witness for C8: the derived-field identities hold on the record fetched
by the concrete one-page script. -/
theorem c8_derived_fields_witness :
    ((mkBSRec rawOne).Liabilities = (mkBSRec rawOne).TA - (mkBSRec rawOne).Eq ∧
     (mkBSRec rawOne).Equity_Ratio = pdDivQ (mkBSRec rawOne).Eq (mkBSRec rawOne).TA) ∧
    (mkCFRec rawOne).Free_Cash_Flow = (mkCFRec rawOne).CFO + (mkCFRec rawOne).CFI := by
  have h := c8_derived_fields "7203" scriptOne
  have hbs : (get_pl_bs_cashflow "7203" scriptOne).bs = [mkBSRec rawOne] := rfl
  have hcf : (get_pl_bs_cashflow "7203" scriptOne).cf = [mkCFRec rawOne] := rfl
  exact ⟨h.1 (mkBSRec rawOne) (by rw [hbs]; exact List.mem_singleton.mpr rfl),
         h.2 (mkCFRec rawOne) (by rw [hcf]; exact List.mem_singleton.mpr rfl)⟩

/-- A provider cell that is absent, a float NaN, or a string that is not a
numeric literal — the values `pd.to_numeric(..., errors="coerce")` turns
into NaN before `fillna(0)`. -/
def isMissingOrNonNumeric (v : PyVal) : Prop :=
  v = PyVal.pnone ∨ v = PyVal.pnum F.nan ∨ ∃ s, v = PyVal.pstr s ∧ parseDecimal s = none

theorem coerceNum_missing_eq_zero (v : PyVal) (h : isMissingOrNonNumeric v) :
    coerceNum v = 0 := by
  rcases h with rfl | rfl | ⟨s, rfl, hs⟩
  · rfl
  · rfl
  · simp [coerceNum, hs]

/-- C5: on every successful fetch, the three returned sequences are exactly
the coerced projections of the accumulated raw records, and in every
returned record each declared numeric statement field whose provider value
is absent, empty, or non-numeric is coerced to exactly `0` — never left
null (the fields have type `ℚ`) and never by raising (total functions). -/
theorem c5_numeric_coercion (code : String) (script : List NetEvent)
    (data : List RawRecord) (q sl : ℕ) (hc : ¬ code = "")
    (h : fetchLoop 3 script = (some data, q, sl)) :
    (get_pl_bs_cashflow code script).pl = data.map mkPLRec ∧
    (get_pl_bs_cashflow code script).bs = data.map mkBSRec ∧
    (get_pl_bs_cashflow code script).cf = data.map mkCFRec ∧
    ∀ r ∈ data,
      (isMissingOrNonNumeric (r "Sales") → (mkPLRec r).Sales = 0) ∧
      (isMissingOrNonNumeric (r "OP") → (mkPLRec r).OP = 0) ∧
      (isMissingOrNonNumeric (r "OdP") → (mkPLRec r).OdP = 0) ∧
      (isMissingOrNonNumeric (r "NP") → (mkPLRec r).NP = 0) ∧
      (isMissingOrNonNumeric (r "EPS") → (mkPLRec r).EPS = 0) ∧
      (isMissingOrNonNumeric (r "DEPS") → (mkPLRec r).DEPS = 0) ∧
      (isMissingOrNonNumeric (r "TA") → (mkBSRec r).TA = 0) ∧
      (isMissingOrNonNumeric (r "CashEq") → (mkBSRec r).CashEq = 0 ∧ (mkCFRec r).CashEq = 0) ∧
      (isMissingOrNonNumeric (r "Eq") → (mkBSRec r).Eq = 0) ∧
      (isMissingOrNonNumeric (r "EqAR") → (mkBSRec r).EqAR = 0) ∧
      (isMissingOrNonNumeric (r "BPS") → (mkBSRec r).BPS = 0) ∧
      (isMissingOrNonNumeric (r "CFO") → (mkCFRec r).CFO = 0) ∧
      (isMissingOrNonNumeric (r "CFI") → (mkCFRec r).CFI = 0) ∧
      (isMissingOrNonNumeric (r "CFF") → (mkCFRec r).CFF = 0) := by
  have hg : get_pl_bs_cashflow code script =
      ⟨data.map mkPLRec, data.map mkBSRec, data.map mkCFRec, q, sl⟩ := by
    unfold get_pl_bs_cashflow
    rw [if_neg hc, h]
  refine ⟨by rw [hg], by rw [hg], by rw [hg], ?_⟩
  intro r _
  exact ⟨fun h' => coerceNum_missing_eq_zero _ h',
         fun h' => coerceNum_missing_eq_zero _ h',
         fun h' => coerceNum_missing_eq_zero _ h',
         fun h' => coerceNum_missing_eq_zero _ h',
         fun h' => coerceNum_missing_eq_zero _ h',
         fun h' => coerceNum_missing_eq_zero _ h',
         fun h' => coerceNum_missing_eq_zero _ h',
         fun h' => ⟨coerceNum_missing_eq_zero _ h', coerceNum_missing_eq_zero _ h'⟩,
         fun h' => coerceNum_missing_eq_zero _ h',
         fun h' => coerceNum_missing_eq_zero _ h',
         fun h' => coerceNum_missing_eq_zero _ h',
         fun h' => coerceNum_missing_eq_zero _ h',
         fun h' => coerceNum_missing_eq_zero _ h',
         fun h' => coerceNum_missing_eq_zero _ h'⟩

/-- Witness for C5: in the record fetched by the concrete one-page script,
the absent `NP` field is coerced to exactly `0`. -/
theorem c5_numeric_coercion_witness :
    (get_pl_bs_cashflow "7203" scriptOne).pl = [rawOne].map mkPLRec ∧
    (mkPLRec rawOne).NP = 0 := by
  have h := c5_numeric_coercion "7203" scriptOne [rawOne] 1 0 (by decide) rfl
  exact ⟨h.1, (h.2.2.2 rawOne (List.mem_singleton.mpr rfl)).2.2.2.1 (Or.inl rfl)⟩

/-- Raw record of page 1 of the C6 scripts: `Code` is "A". -/
def rawA : RawRecord := fun f =>
  if f = "Code" then PyVal.pstr "A"
  else if f = "Sales" then PyVal.pnum (F.num 1)
  else PyVal.pnone

/-- Raw record of the other page of the C6 scripts: `Code` is "B". -/
def rawB : RawRecord := fun f =>
  if f = "Code" then PyVal.pstr "B"
  else if f = "Sales" then PyVal.pnum (F.num 2)
  else PyVal.pnone

/-- Script refuting C6: the initial request succeeds with page `[rawA]` and
a pagination key, the page request raises an exception, and the retried
initial request succeeds with `[rawB]` and no key. -/
def scriptPageException : List NetEvent :=
  [NetEvent.ok ⟨[rawA], some "key"⟩, NetEvent.exc, NetEvent.ok ⟨[rawB], none⟩]

/-- Counterexample to C6 as stated: when the page request fails with an
exception (one of the failure modes of a page request), the exception is
caught by the outer retry handler, the accumulated page `[rawA]` is
discarded, and the whole fetch restarts as a new retry attempt — the
result holds only the record of the retried fetch (`Code` "B") and three
requests were made instead of two. -/
theorem c6_counterexample :
    (get_pl_bs_cashflow "7203" scriptPageException).pl.map PLRec.Code = [PyVal.pstr "B"] ∧
    (get_pl_bs_cashflow "7203" scriptPageException).requests = 3 :=
  ⟨rfl, rfl⟩

/-- C6 amended: a *non-200 status* on a subsequent page request ends
pagination while keeping all already-accumulated pages in the result, in
provider order, without a new retry attempt (2 requests total); an
*exception* on a page request instead aborts the attempt and retries the
whole fetch (see the counterexample). With pages P1 (carrying a
pagination key) and P2 (without one), the result is P1.data followed by
P2.data. -/
theorem c6_amended_page_failure (code : String) (hc : ¬ code = "")
    (d1 d2 : List RawRecord) (k : String) (rest : List NetEvent)
    (hd1 : d1.isEmpty = false) :
    ((get_pl_bs_cashflow code (NetEvent.ok ⟨d1, some k⟩ :: NetEvent.err :: rest)).pl =
        d1.map mkPLRec ∧
     (get_pl_bs_cashflow code (NetEvent.ok ⟨d1, some k⟩ :: NetEvent.err :: rest)).requests =
        2) ∧
    (get_pl_bs_cashflow code (NetEvent.ok ⟨d1, some k⟩ :: NetEvent.ok ⟨d2, none⟩ :: rest)).pl =
      (d1 ++ d2).map mkPLRec := by
  have hne : (d1 ++ d2).isEmpty = false := by
    cases d1 with
    | nil => simp at hd1
    | cons a as => simp
  refine ⟨⟨?_, ?_⟩, ?_⟩ <;>
    · unfold get_pl_bs_cashflow
      rw [if_neg hc]
      simp [fetchLoop, paginate, hd1, hne]

/-- Witness for C6 amended: concrete two-page script with a non-200 page
failure, and concrete two-page success. -/
theorem c6_amended_page_failure_witness :
    ((get_pl_bs_cashflow "7203" [NetEvent.ok ⟨[rawA], some "key"⟩, NetEvent.err]).pl =
        [rawA].map mkPLRec ∧
     (get_pl_bs_cashflow "7203" [NetEvent.ok ⟨[rawA], some "key"⟩, NetEvent.err]).requests =
        2) ∧
    (get_pl_bs_cashflow "7203" [NetEvent.ok ⟨[rawA], some "key"⟩, NetEvent.ok ⟨[rawB], none⟩]).pl =
      ([rawA] ++ [rawB]).map mkPLRec :=
  c6_amended_page_failure "7203" (by decide) [rawA] [rawB] "key" [] rfl

/-- C1: when a call reaches the ratio-computation stage — validation
passed, both selections succeeded, a price was fetched — the ratio fields
are exactly the guarded formulas of the source over the selected values:
`EquityRatio = round(Eq / TA * 100, 1)` when `TA > 0` else null;
`PBR = round(price / BPS, 2)` when `BPS > 0` else null; and when the
selection is annual, `PER = round(price / EPS, 2)` when `EPS > 0` else
null, `ROE = round(NP / Eq * 100, 2)` when `Eq > 0` else null,
`ROA = round(NP / TA * 100, 2)` when `TA > 0` else null. -/
theorem c1_ratio_formulas (yf : String) (pl : List PLIn) (bs : List BSIn) (ps : List PriceEvent)
    (lpl : PLIn) (ann : Bool) (lbs : BSIn) (price : F) (c : ℕ)
    (hv : ¬(yf = "" ∨ pl = [] ∨ bs = []))
    (hsel : selPL pl = some (lpl, ann)) (hselb : selBS bs = some lbs)
    (hp : fetchPrice 3 ps = (some price, c)) :
    ((calculate_valuation_metrics yf pl bs ps).metrics.lookup "EquityRatio" =
      some (if fgt (safe_float lbs.TA) (F.num 0)
            then MVal.mNum (fround 1 (fmul (fdiv (safe_float lbs.Eq) (safe_float lbs.TA)) (F.num 100)))
            else MVal.mNull)) ∧
    ((calculate_valuation_metrics yf pl bs ps).metrics.lookup "PBR" =
      some (if fgt (safe_float lbs.BPS) (F.num 0)
            then MVal.mNum (fround 2 (fdiv price (safe_float lbs.BPS)))
            else MVal.mNull)) ∧
    (ann = true →
      ((calculate_valuation_metrics yf pl bs ps).metrics.lookup "PER" =
        some (if fgt (safe_float lpl.EPS) (F.num 0)
              then MVal.mNum (fround 2 (fdiv price (safe_float lpl.EPS)))
              else MVal.mNull)) ∧
      ((calculate_valuation_metrics yf pl bs ps).metrics.lookup "ROE" =
        some (if fgt (safe_float lbs.Eq) (F.num 0)
              then MVal.mNum (fround 2 (fmul (fdiv (safe_float lpl.NP) (safe_float lbs.Eq)) (F.num 100)))
              else MVal.mNull)) ∧
      ((calculate_valuation_metrics yf pl bs ps).metrics.lookup "ROA" =
        some (if fgt (safe_float lbs.TA) (F.num 0)
              then MVal.mNum (fround 2 (fmul (fdiv (safe_float lpl.NP) (safe_float lbs.TA)) (F.num 100)))
              else MVal.mNull))) := by
  rw [calc_metrics_eq yf pl bs ps lpl ann lbs price c hv hsel hselb hp]
  cases ann with
  | false => exact ⟨rfl, rfl, fun h => Bool.noConfusion h⟩
  | true => exact ⟨rfl, rfl, fun _ => ⟨rfl, rfl, rfl⟩⟩

/-- Concrete annual PL input record used by witnesses. -/
def plAnnualIn : PLIn :=
  { DocType := PyVal.pstr "FYFinancialStatements_Consolidated_IFRS"
    CurPerEn := 0
    Sales := PyVal.pnum (F.num 1000)
    EPS := PyVal.pnum (F.num 100)
    NP := PyVal.pnum (F.num 50) }

/-- Concrete interim PL input record used by witnesses: its document type
matches neither "fy" nor "annual". -/
def plInterimIn : PLIn :=
  { DocType := PyVal.pstr "2QFinancialStatements_Consolidated_JP"
    CurPerEn := 5
    Sales := PyVal.pnum (F.num 800)
    EPS := PyVal.pnum (F.num 90)
    NP := PyVal.pnum (F.num 40) }

/-- Concrete BS input record used by witnesses. -/
def bsIn1 : BSIn :=
  { CurPerEn := 0
    TA := PyVal.pnum (F.num 200)
    Eq := PyVal.pnum (F.num 100)
    BPS := PyVal.pnum (F.num 250) }

/-- Witness for C1: annual selection with EPS 100 and price 500 gives
`PER = 5.0` (the spec's own worked example). -/
theorem c1_ratio_formulas_witness :
    (calculate_valuation_metrics "7203.T" [plAnnualIn] [bsIn1]
        [PriceEvent.phist [F.num 500]]).metrics.lookup "PER" =
      some (MVal.mNum (F.num 5)) := by
  have h := c1_ratio_formulas "7203.T" [plAnnualIn] [bsIn1] [PriceEvent.phist [F.num 500]]
    plAnnualIn true bsIn1 (F.num 500) 1 (by decide) (by decide) (by decide) rfl
  rw [(h.2.2 rfl).1]
  norm_num [plAnnualIn, safe_float, fgt, fdiv, fround, rhe, qfloor]

/-- C2: when no input PL record's document type matches the annual pattern,
`PER`, `ROE` and `ROA` are null in the result regardless of the EPS and
NetProfit values, while `PBR` and `EquityRatio` are still computed normally
from the selected BS record and the fetched price. -/
theorem c2_no_annual_forces_null (yf : String) (pl : List PLIn) (bs : List BSIn)
    (ps : List PriceEvent) (lpl : PLIn) (lbs : BSIn) (price : F) (c : ℕ)
    (hnone : ∀ r ∈ pl, containsAnnual (pyToStr r.DocType) = false)
    (hv : ¬(yf = "" ∨ pl = [] ∨ bs = []))
    (hlast : (plCandidates pl).getLast? = some lpl)
    (hselb : selBS bs = some lbs)
    (hp : fetchPrice 3 ps = (some price, c)) :
    ((calculate_valuation_metrics yf pl bs ps).metrics.lookup "PER" = some MVal.mNull) ∧
    ((calculate_valuation_metrics yf pl bs ps).metrics.lookup "ROE" = some MVal.mNull) ∧
    ((calculate_valuation_metrics yf pl bs ps).metrics.lookup "ROA" = some MVal.mNull) ∧
    ((calculate_valuation_metrics yf pl bs ps).metrics.lookup "EquityRatio" =
      some (if fgt (safe_float lbs.TA) (F.num 0)
            then MVal.mNum (fround 1 (fmul (fdiv (safe_float lbs.Eq) (safe_float lbs.TA)) (F.num 100)))
            else MVal.mNull)) ∧
    ((calculate_valuation_metrics yf pl bs ps).metrics.lookup "PBR" =
      some (if fgt (safe_float lbs.BPS) (F.num 0)
            then MVal.mNum (fround 2 (fdiv price (safe_float lbs.BPS)))
            else MVal.mNull)) := by
  have hann : plAnnuals pl = [] := by
    apply List.eq_nil_iff_forall_not_mem.mpr
    intro a ha
    have hm := (mem_plAnnuals pl a).mp ha
    rw [hnone a hm.1] at hm
    exact Bool.noConfusion hm.2.2
  have hsel : selPL pl = some (lpl, false) := by
    unfold selPL
    rw [hann, hlast]
    rfl
  rw [calc_metrics_eq yf pl bs ps lpl false lbs price c hv hsel hselb hp]
  exact ⟨rfl, rfl, rfl, rfl, rfl⟩

/-- Witness for C2: a lone interim record with nonzero EPS and NP still
gives null `PER`, `ROE`, `ROA`, while `PBR` and `EquityRatio` are computed. -/
theorem c2_no_annual_forces_null_witness :
    ((calculate_valuation_metrics "7203.T" [plInterimIn] [bsIn1]
        [PriceEvent.phist [F.num 500]]).metrics.lookup "PER" = some MVal.mNull) ∧
    ((calculate_valuation_metrics "7203.T" [plInterimIn] [bsIn1]
        [PriceEvent.phist [F.num 500]]).metrics.lookup "PBR" =
      some (MVal.mNum (F.num 2))) := by
  have h := c2_no_annual_forces_null "7203.T" [plInterimIn] [bsIn1]
    [PriceEvent.phist [F.num 500]] plInterimIn bsIn1 (F.num 500) 1
    (by decide) (by decide) (by decide) (by decide) rfl
  refine ⟨h.1, ?_⟩
  rw [h.2.2.2.2]
  norm_num [bsIn1, safe_float, fgt, fdiv, fround, rhe, qfloor]

/-- C4: the records used for valuation are selected as specified. If any
record (after dropping those with a missing revenue field) matches the
annual pattern, the selected PL record is the matching record with the
latest period end and the selection is marked annual; otherwise it is the
eligible record with the latest period end, marked non-annual. The
selected BS record is always the latest by period end after dropping
records with a missing total-assets field, with no annual distinction. -/
theorem c4_record_selection (pl : List PLIn) (bs : List BSIn) :
    (∀ x, (plAnnuals pl).getLast? = some x →
      selPL pl = some (x, true) ∧
      x ∈ pl ∧ isNA x.Sales = false ∧ containsAnnual (pyToStr x.DocType) = true ∧
      ∀ r ∈ pl, isNA r.Sales = false → containsAnnual (pyToStr r.DocType) = true →
        dateKeyPL r ≤ dateKeyPL x) ∧
    ((plAnnuals pl).getLast? = none →
      ∀ y, (plCandidates pl).getLast? = some y →
        selPL pl = some (y, false) ∧ y ∈ pl ∧ isNA y.Sales = false ∧
        ∀ r ∈ pl, isNA r.Sales = false → dateKeyPL r ≤ dateKeyPL y) ∧
    (∀ z, (bsCandidates bs).getLast? = some z →
      selBS bs = some z ∧ z ∈ bs ∧ isNA z.TA = false ∧
      ∀ r ∈ bs, isNA r.TA = false → dateKeyBS r ≤ dateKeyBS z) := by
  refine ⟨?_, ?_, ?_⟩
  · intro x hx
    have hmem := (mem_plAnnuals pl x).mp (mem_of_getLast?' hx)
    refine ⟨?_, hmem.1, hmem.2.1, hmem.2.2, ?_⟩
    · unfold selPL
      rw [hx]
    · intro r hr hs hannual
      exact getLast?_key_max dateKeyPL _ x (pairwise_plAnnuals pl) hx r
        ((mem_plAnnuals pl r).mpr ⟨hr, hs, hannual⟩)
  · intro hnone y hy
    have hmem := (mem_plCandidates pl y).mp (mem_of_getLast?' hy)
    refine ⟨?_, hmem.1, hmem.2, ?_⟩
    · unfold selPL
      rw [hnone, hy]
      rfl
    · intro r hr hs
      exact getLast?_key_max dateKeyPL _ y (pairwise_plCandidates pl) hy r
        ((mem_plCandidates pl r).mpr ⟨hr, hs⟩)
  · intro z hz
    have hmem := (mem_bsCandidates bs z).mp (mem_of_getLast?' hz)
    refine ⟨hz, hmem.1, hmem.2, ?_⟩
    intro r hr hs
    exact getLast?_key_max dateKeyBS _ z (pairwise_bsCandidates bs) hz r
      ((mem_bsCandidates bs r).mpr ⟨hr, hs⟩)

/-- Witness for C4: with an interim record dated later than an annual
record, the annual record is selected and marked annual; the lone BS
record is selected. -/
theorem c4_record_selection_witness :
    selPL [plInterimIn, plAnnualIn] = some (plAnnualIn, true) ∧
    selBS [bsIn1] = some bsIn1 := by
  have h := c4_record_selection [plInterimIn, plAnnualIn] [bsIn1]
  exact ⟨(h.1 plAnnualIn (by decide)).1, (h.2.2 bsIn1 (by decide)).1⟩

/-- Counterexample to C3 as stated: a NaN closing price in a non-empty
price history is accepted by the price loop and propagates into the
returned metrics — both `Price` and the ratio field `PBR` come out NaN,
so a NaN value can appear in a field of a non-empty result. -/
theorem c3_counterexample :
    ((calculate_valuation_metrics "7203.T" [plAnnualIn] [bsIn1]
        [PriceEvent.phist [F.nan]]).metrics.lookup "PBR" = some (MVal.mNum F.nan)) ∧
    ((calculate_valuation_metrics "7203.T" [plAnnualIn] [bsIn1]
        [PriceEvent.phist [F.nan]]).metrics.lookup "Price" = some (MVal.mNum F.nan)) := by
  constructor <;> decide

/-- Holds of a metrics value that is not a float NaN: a string, a null, or
a finite number. -/
def notNaNVal : MVal → Prop
  | MVal.mNum F.nan => False
  | _ => True

theorem notNaNVal_mNum (f : F) (h : f ≠ F.nan) : notNaNVal (MVal.mNum f) := by
  cases f with
  | nan => exact absurd rfl h
  | num q => trivial

/-- C3 amended: every ratio field of a non-empty result is either a
rounded number or an explicit null, and no division by zero occurs (every
division is guarded by a strict-positivity test on its denominator) —
provided the fetched price and the selected record values are not NaN. A
NaN close price or a NaN input value (both outside the coercion performed
by the fetcher, but accepted by the calculator) propagates into the
result, as the counterexample shows. -/
theorem c3_amended_no_nan (yf : String) (pl : List PLIn) (bs : List BSIn)
    (ps : List PriceEvent) (lpl : PLIn) (ann : Bool) (lbs : BSIn) (price : F) (c : ℕ)
    (hsel : selPL pl = some (lpl, ann)) (hselb : selBS bs = some lbs)
    (hp : fetchPrice 3 ps = (some price, c))
    (hprice : price ≠ F.nan)
    (heps : safe_float lpl.EPS ≠ F.nan) (hnp : safe_float lpl.NP ≠ F.nan)
    (hbps : safe_float lbs.BPS ≠ F.nan) (heq : safe_float lbs.Eq ≠ F.nan)
    (hta : safe_float lbs.TA ≠ F.nan) :
    ∀ kv ∈ (calculate_valuation_metrics yf pl bs ps).metrics, notNaNVal kv.2 := by
  by_cases hv : yf = "" ∨ pl = [] ∨ bs = []
  · unfold calculate_valuation_metrics
    rw [if_pos hv]
    intro kv hkv
    exact absurd hkv (List.not_mem_nil kv)
  · rw [calc_metrics_eq yf pl bs ps lpl ann lbs price c hv hsel hselb hp]
    intro kv hkv
    cases ann <;>
      simp only [mkMetrics, Bool.false_eq_true, Bool.true_eq_false, if_true, if_false,
        ite_true, ite_false, List.cons_append, List.nil_append, List.mem_cons,
        List.not_mem_nil, or_false] at hkv <;>
      rcases hkv with rfl | rfl | rfl | rfl | rfl | rfl | rfl
    · trivial
    · exact notNaNVal_mNum price hprice
    · by_cases hcond : fgt (safe_float lbs.TA) (F.num 0) = true
      · simp only [hcond, if_true]
        exact notNaNVal_mNum _ (fround_not_nan _ _
          (fmul_not_nan _ _ (fdiv_not_nan _ _ heq hcond) (by decide)))
      · simp only [Bool.not_eq_true] at hcond
        simp only [hcond, Bool.false_eq_true, if_false]
        trivial
    · by_cases hcond : fgt (safe_float lbs.BPS) (F.num 0) = true
      · simp only [hcond, if_true]
        exact notNaNVal_mNum _ (fround_not_nan _ _ (fdiv_not_nan _ _ hprice hcond))
      · simp only [Bool.not_eq_true] at hcond
        simp only [hcond, Bool.false_eq_true, if_false]
        trivial
    · trivial
    · trivial
    · trivial
    · trivial
    · exact notNaNVal_mNum price hprice
    · by_cases hcond : fgt (safe_float lbs.TA) (F.num 0) = true
      · simp only [hcond, if_true]
        exact notNaNVal_mNum _ (fround_not_nan _ _
          (fmul_not_nan _ _ (fdiv_not_nan _ _ heq hcond) (by decide)))
      · simp only [Bool.not_eq_true] at hcond
        simp only [hcond, Bool.false_eq_true, if_false]
        trivial
    · by_cases hcond : fgt (safe_float lbs.BPS) (F.num 0) = true
      · simp only [hcond, if_true]
        exact notNaNVal_mNum _ (fround_not_nan _ _ (fdiv_not_nan _ _ hprice hcond))
      · simp only [Bool.not_eq_true] at hcond
        simp only [hcond, Bool.false_eq_true, if_false]
        trivial
    · by_cases hcond : fgt (safe_float lpl.EPS) (F.num 0) = true
      · simp only [hcond, if_true]
        exact notNaNVal_mNum _ (fround_not_nan _ _ (fdiv_not_nan _ _ hprice hcond))
      · simp only [Bool.not_eq_true] at hcond
        simp only [hcond, Bool.false_eq_true, if_false]
        trivial
    · by_cases hcond : fgt (safe_float lbs.Eq) (F.num 0) = true
      · simp only [hcond, if_true]
        exact notNaNVal_mNum _ (fround_not_nan _ _
          (fmul_not_nan _ _ (fdiv_not_nan _ _ hnp hcond) (by decide)))
      · simp only [Bool.not_eq_true] at hcond
        simp only [hcond, Bool.false_eq_true, if_false]
        trivial
    · by_cases hcond : fgt (safe_float lbs.TA) (F.num 0) = true
      · simp only [hcond, if_true]
        exact notNaNVal_mNum _ (fround_not_nan _ _
          (fmul_not_nan _ _ (fdiv_not_nan _ _ hnp hcond) (by decide)))
      · simp only [Bool.not_eq_true] at hcond
        simp only [hcond, Bool.false_eq_true, if_false]
        trivial

/-- Witness for C3 amended: with a finite price and finite record values,
the `Price` entry of the result is not NaN. -/
theorem c3_amended_no_nan_witness :
    notNaNVal (("Price", MVal.mNum (F.num 500)) : String × MVal).2 :=
  c3_amended_no_nan "7203.T" [plAnnualIn] [bsIn1] [PriceEvent.phist [F.num 500]]
    plAnnualIn true bsIn1 (F.num 500) 1 (by decide) (by decide) rfl
    (by decide) (by decide) (by decide) (by decide) (by decide) (by decide)
    ("Price", MVal.mNum (F.num 500)) (by decide)

end StockMarket
